import Mathlib

/-!
Verification development for the `asym_uncertainty` package: a shallow
embedding, over the rationals, of the Monte-Carlo uncertainty-propagation
core (`asym_uncertainty.py`, `algebra.py`, `io.py`, `mc_statistics.py`,
`evaluation.py`).

Modelling conventions:
* Python floats are modelled as rationals (`ℚ`); `math.inf` / `-math.inf`
  are modelled by the extended type `XQ` and only occur in the `limits`
  field, as in the source.
* Random sampling (`numpy.random` seeded draws, `scipy` inverse CDFs) and
  the kernel-density mode refinement are genuinely number-theoretic /
  floating-point components; they are abstracted into an explicit
  environment `MCEnv` of deterministic functions that is threaded through
  the pipeline, mirroring the fact that the source's sampling is a
  deterministic function of the seed.  Everything else (control flow,
  validation order, shortcut dispatch, the empirical-CDF statistics and
  the histogram mode estimator) is embedded directly from the source.
* Python exceptions: mutating methods are modelled as functions returning
  `Unc × Option Err` (the state of the object after the call together with
  the exception, if one was raised), because a raising Python method leaves
  the object in whatever state it reached.  The constructor is modelled as
  `Except Err Unc` since a raising constructor returns no object.
* `rounded` / `round_digits` only affect the display field `rounded` and
  are omitted from the state; warnings (`warnings.warn`) do not alter
  control flow or state and are not modelled.
-/

attribute [local semireducible] Rat.mul Rat.add Rat.sub Rat.inv

/-- Extended rationals: model of a Python float that may be `±math.inf`.
Finite values are exact rationals. -/
inductive XQ where
  | ninf : XQ
  | fin : ℚ → XQ
  | pinf : XQ
deriving DecidableEq, Repr

/-- `xqLe a b` models the Python comparison `a <= b` on floats that may be
infinite (no NaN can arise in the embedded comparisons). -/
def xqLe : XQ → XQ → Bool
  | .ninf, _ => true
  | _, .pinf => true
  | .fin a, .fin b => decide (a ≤ b)
  | _, _ => false

/-- `xqLt a b` models the Python comparison `a < b`. -/
def xqLt : XQ → XQ → Bool
  | .ninf, .ninf => false
  | .ninf, _ => true
  | .fin _, .ninf => false
  | .fin a, .fin b => decide (a < b)
  | .fin _, .pinf => true
  | .pinf, _ => false

/-- `xqMemB lo hi x` models `(x >= lo) and (x <= hi)` for a finite sample
value `x` against possibly-infinite limits, as used by `numpy.extract` in
`io.sample_random_numbers`. -/
def xqMemB (lo hi : XQ) (x : ℚ) : Bool :=
  xqLe lo (.fin x) && xqLe (.fin x) hi

/-- Exceptions raised by the embedded code.  The source raises Python
`ValueError` for argument validation, raises `RuntimeWarning` (as an
exception) for the mean-conservation/limits contradiction in
`randn_asym`, and a plain-float division by zero raises
`ZeroDivisionError`. -/
inductive Err where
  | valueError
  | runtimeWarningError
  | zeroDivisionError
deriving DecidableEq, Repr

/-- `check_num_array_argument(limits, 2, is_increasing=True)` from
`mc_statistics.py` raises iff `not (diff(limits) >= 0)`.  For two equal
infinite limits `diff` is `nan`, and `not (nan >= 0.)` is true, so that
case also raises; otherwise it raises exactly when the second limit is
strictly below the first. -/
def limits_check_fails : XQ × XQ → Bool
  | (.pinf, .pinf) => true
  | (.ninf, .ninf) => true
  | (a, b) => xqLt b a

/-!  ## Empirical-CDF statistics (`mc_statistics.py`)  -/

/-- First value of `numpy.min` over a list (0 for the empty list, which the
source never queries). -/
def minList : List ℚ → ℚ
  | [] => 0
  | [x] => x
  | x :: y :: t => min x (minList (y :: t))

/-- Largest value of a list (0 for the empty list). -/
def maxList : List ℚ → ℚ
  | [] => 0
  | [x] => x
  | x :: y :: t => max x (maxList (y :: t))

/-- `numpy.argmin`: index of the first occurrence of the minimum value. -/
def argminList : List ℚ → ℕ
  | [] => 0
  | [_] => 0
  | x :: y :: t => if x ≤ minList (y :: t) then 0 else argminList (y :: t) + 1

/-- Largest value of a list of naturals (0 for the empty list). -/
def maxNatList : List ℕ → ℕ
  | [] => 0
  | [x] => x
  | x :: y :: t => max x (maxNatList (y :: t))

/-- `numpy.argmax` over natural-number counts: index of the first occurrence
of the maximum value (used by the histogram mode estimator). -/
def argmaxNatList : List ℕ → ℕ
  | [] => 0
  | [_] => 0
  | x :: y :: t => if maxNatList (y :: t) ≤ x then 0 else argmaxNatList (y :: t) + 1

/-- `numpy.linspace(0., 1., n)`: `n` evenly spaced points from 0 to 1
(a single 0 for `n = 1`). -/
def linspace01 (n : ℕ) : List ℚ :=
  (List.range n).map (fun i => if n ≤ 1 then 0 else (i : ℚ) / ((n : ℚ) - 1))

/-- Insertion of a value into a sorted list (auxiliary for `sortQ`). -/
def insertSorted (x : ℚ) : List ℚ → List ℚ
  | [] => [x]
  | y :: t => if x ≤ y then x :: y :: t else y :: insertSorted x t

/-- `numpy.sort` on rationals: the ascending rearrangement (insertion sort;
on a linear order the sorted rearrangement is unique, so this computes
exactly numpy's output). -/
def sortQ : List ℚ → List ℚ
  | [] => []
  | x :: t => insertSorted x (sortQ t)

/-- `mc_statistics.cdf`: returns `[sort(rand), linspace(0., 1., size(rand))]`.
(The source documents the return as `[sorted values, CDF values]`.) -/
def cdf (rand : List ℚ) : List ℚ × List ℚ :=
  (sortQ rand, linspace01 rand.length)

/-- The window size `int(coverage_percent*0.01*n_rand)` used by
`shortest_coverage`.  The product is nonnegative, so Python's `int`
truncation agrees with the floor (`Rat.floor`). -/
def coverage_window (coverage_percent : ℚ) (n : ℕ) : ℕ :=
  (coverage_percent * (1/100) * (n : ℚ)).floor.toNat

/-- `mc_statistics.shortest_coverage` on the default path
(`uncertainty_estimate=False`, the only path the package exercises):
with `x` the sorted values and `k` the window, it computes
`dist = |x - roll(x, k)|`, takes `argmin` of `dist[k:]` (whose entry `j`
is `|x[j+k] - x[j]|`), and returns `[x[i], x[i+k]]` for the minimizing
index `i`. -/
def shortest_coverage (cum_dis_fun : List ℚ × List ℚ) (coverage_percent : ℚ) : ℚ × ℚ :=
  let xs := cum_dis_fun.1
  let n := xs.length
  let k := coverage_window coverage_percent n
  let dists := (List.range (n - k)).map (fun j => |xs.getD (j + k) 0 - xs.getD j 0|)
  let i := argminList dists
  (xs.getD i 0, xs.getD (i + k) 0)

/-- `⌊√n⌋` (the number of `k ∈ [0, n]` with `k·k ≤ n`, minus one; stated
this way to be directly computable by kernel reduction). -/
def natSqrt (n : ℕ) : ℕ :=
  ((List.range (n + 1)).filter (fun k => decide (k * k ≤ n))).length - 1

/-- The histogram mode estimate of `evaluation.evaluate`:
`hist, bins = numpy.histogram(data, bins="sqrt")` (the bin count is
`ceil(sqrt(len(data)))`, the edges are `linspace(min, max, bins+1)`, all
bins are right-open except the last, and for constant data numpy widens
the range to `(v - 0.5, v + 0.5)`), followed by
`bins[argmax(hist)] + 0.5*(bins[1] - bins[0])`. -/
def hist_mode (data : List ℚ) : ℚ :=
  match data with
  | [] => 0
  | _ =>
    let n := data.length
    let mn := minList data
    let mx := maxList data
    let lo : ℚ := if mn = mx then mn - 1/2 else mn
    let hi : ℚ := if mn = mx then mx + 1/2 else mx
    let nbins := if natSqrt n * natSqrt n = n then natSqrt n else natSqrt n + 1
    let w := (hi - lo) / (nbins : ℚ)
    let counts := (List.range nbins).map (fun i =>
      (data.filter (fun x =>
        decide (lo + (i : ℚ) * w ≤ x) &&
        (if i = nbins - 1 then decide (x ≤ hi) else decide (x < lo + ((i : ℚ) + 1) * w)))).length)
    let i0 := argmaxNatList counts
    lo + (i0 : ℚ) * w + w / 2

/-!  ## The sampling environment

`numpy.random.normal` / `uniform` after `numpy.random.seed(s)` are
deterministic functions of the seed, and `scipy.stats.norm.cdf/ppf` are
fixed real functions; the composite draw performed by a successful
`randn_asym` call is therefore a deterministic function of the seed and
the numeric arguments.  `MCEnv` packages these irrational-valued
components as abstract deterministic functions; the control flow around
them is embedded exactly.  -/

/-- The deterministic numeric environment threaded through the pipeline. -/
structure MCEnv where
  /-- The array returned by a successful `randn_asym(mean, sigma, limits,
  random_seed, n_random)` call made by the pipeline (all such calls pass a
  valid seed and valid limits and leave `conserve_mean_value=False`). -/
  sample : ℚ → ℚ × ℚ → XQ × XQ → ℕ → ℕ → List ℚ
  /-- The array produced by `io.sample_random_numbers` when it rebuilds
  `n_random` values by inverse-CDF interpolation (`scipy.interpolate.interp1d`
  applied to fresh `uniform(0., 1.)` draws) from the retained values inside
  the limits. -/
  resample : List ℚ → ℕ → List ℚ
  /-- The most-probable-value estimate of `evaluation.evaluate` computed
  from the samples inside the shortest-coverage interval (Gaussian-KDE
  maximization with the histogram estimate as fallback). -/
  mode : List ℚ → ℚ × ℚ → ℚ
  /-- Real-valued power `x ** y` on sampled values (irrational in general),
  used by the power operators. -/
  powQ : ℚ → ℚ → ℚ
  /-- The post-validation draw of a standalone `randn_asym` call: a function
  of the effective RNG state, the numeric arguments and the
  `conserve_mean_value` flag. -/
  draw : ℕ → ℚ → ℚ × ℚ → XQ × XQ → Bool → ℕ → List ℚ

/-- `evaluation.evaluate(rand_result, force_inside_shortest_coverage=True,
use_kde=True)` — the only configuration the package calls: compute the
shortest 68.27 % coverage interval of the empirical CDF, restrict to the
samples inside it, estimate the most probable value from them, and return
`([most_probable, most_probable - s_cov[0], s_cov[1] - most_probable],
rand_result)`. -/
def evaluate (env : MCEnv) (rand_result : List ℚ) : (ℚ × ℚ × ℚ) × List ℚ :=
  let s_cov := shortest_coverage (cdf rand_result) ((6827 : ℚ) / 100)
  let data_inside := rand_result.filter (fun x => decide (s_cov.1 ≤ x) && decide (x ≤ s_cov.2))
  let most_probable := env.mode data_inside s_cov
  ((most_probable, most_probable - s_cov.1, s_cov.2 - most_probable), rand_result)

/-!  ## The `Unc` state (`asym_uncertainty.py`)  -/

/-- The observable state of an `Unc` object.  The display-only field
`rounded` is omitted (`round_digits` writes only to it). -/
structure Unc where
  mean_value : ℚ
  sigma_low : ℚ
  sigma_up : ℚ
  is_exact : Bool
  limits : XQ × XQ
  seed : ℕ
  store : Bool
  random_values : List ℚ
  n_random : ℕ
deriving DecidableEq, Repr

/-- Sequencing of mutating method calls with Python exception semantics:
if the first call raised, the state it reached is final; otherwise the
next call runs on the new state. -/
def bindE (r : Unc × Option Err) (f : Unc → Unc × Option Err) : Unc × Option Err :=
  match r with
  | (u, some e) => (u, some e)
  | (u, none) => f u

/-- `io.set_mean_value`: assign `mean_value` (then `round_digits`, which
only touches the display field). -/
def set_mean_value (u : Unc) (mean_value : ℚ) : Unc :=
  { u with mean_value := mean_value }

/-- `io.set_sigma_low`: raise `ValueError` for a negative argument
(before any mutation), otherwise assign `sigma_low` and re-derive
`is_exact`. -/
def set_sigma_low (u : Unc) (sigma_low : ℚ) : Unc × Option Err :=
  if sigma_low < 0 then (u, some .valueError)
  else ({ u with sigma_low := sigma_low,
                 is_exact := decide (sigma_low = 0) && decide (u.sigma_up = 0) }, none)

/-- `io.set_sigma_up`: raise `ValueError` for a negative argument
(before any mutation), otherwise assign `sigma_up` and re-derive
`is_exact`. -/
def set_sigma_up (u : Unc) (sigma_up : ℚ) : Unc × Option Err :=
  if sigma_up < 0 then (u, some .valueError)
  else ({ u with sigma_up := sigma_up,
                 is_exact := decide (u.sigma_low = 0) && decide (sigma_up = 0) }, none)

/-- The tail of `io.sample_random_numbers`: evaluate the freshly assigned
`random_values` with `force_inside_shortest_coverage=True` and run
`set_mean_value`, `set_sigma_low`, `set_sigma_up` in that order. -/
def eval_and_set (env : MCEnv) (u : Unc) : Unc × Option Err :=
  let ev := evaluate env u.random_values
  bindE (set_sigma_low (set_mean_value u ev.1.1) ev.1.2.1)
    (fun u' => set_sigma_up u' ev.1.2.2)

/-- `io.sample_random_numbers`: if more than one random value is stored,
keep the ones inside the limits, raise `ValueError` when fewer than two
remain (before mutating anything), otherwise rebuild `n_random` values by
inverse-CDF interpolation; with at most one stored value, draw fresh
values with `randn_asym`.  In both success cases the new array is then
evaluated and `mean_value`/`sigma_low`/`sigma_up` are reassigned. -/
def sample_random_numbers (env : MCEnv) (u : Unc) : Unc × Option Err :=
  if 1 < u.random_values.length then
    if (u.random_values.filter (xqMemB u.limits.1 u.limits.2)).length < 2 then
      (u, some .valueError)
    else
      eval_and_set env
        { u with
          random_values := env.resample
            (u.random_values.filter (xqMemB u.limits.1 u.limits.2)) u.n_random }
  else
    eval_and_set env
      { u with random_values := env.sample u.mean_value (u.sigma_low, u.sigma_up)
                                  u.limits u.seed u.n_random }

/-- `io.set_n_random`: the argument must be an integer `> 1`
(`ValueError` otherwise, raised before any mutation); then assign
`n_random` and, when samples are retained, truncate the stored array if it
is long enough or sample a fresh array otherwise. -/
def set_n_random (env : MCEnv) (u : Unc) (n_random : Int) : Unc × Option Err :=
  if n_random < 2 then (u, some .valueError)
  else if u.store then
    if n_random.toNat ≤ u.random_values.length then
      ({ u with n_random := n_random.toNat,
                random_values := u.random_values.take n_random.toNat }, none)
    else sample_random_numbers env { u with n_random := n_random.toNat }
  else ({ u with n_random := n_random.toNat }, none)

/-- `io.check_limit_update`: raises iff
`new_limits[0] >= self.limits[1] or new_limits[1] <= self.limits[0]`. -/
def check_limit_update_fails (u : Unc) (new_limits : XQ × XQ) : Bool :=
  xqLe u.limits.2 new_limits.1 || xqLe new_limits.2 u.limits.1

/-- `io.set_limits`: validate the pair (increasing), run
`check_limit_update`, then assign `limits` and — for a non-exact
quantity — re-sample.  Note the assignment happens before the re-sampling,
so an exception raised by `sample_random_numbers` leaves the new limits in
place. -/
def set_limits (env : MCEnv) (u : Unc) (limits : XQ × XQ) : Unc × Option Err :=
  if limits_check_fails limits then (u, some .valueError)
  else if check_limit_update_fails u limits then (u, some .valueError)
  else
    let u := { u with limits := limits }
    if u.is_exact then (u, none) else sample_random_numbers env u

/-- `io.set_lower_limit`: validate `[lower_limit, self.limits[1]]`, run
`check_limit_update` on it, then assign the lower limit and — for a
non-exact quantity — re-sample. -/
def set_lower_limit (env : MCEnv) (u : Unc) (lower_limit : XQ) : Unc × Option Err :=
  if limits_check_fails (lower_limit, u.limits.2) then (u, some .valueError)
  else if check_limit_update_fails u (lower_limit, u.limits.2) then (u, some .valueError)
  else
    let u := { u with limits := (lower_limit, u.limits.2) }
    if u.is_exact then (u, none) else sample_random_numbers env u

/-- `io.set_upper_limit`: validate `[self.limits[0], upper_limit]`, run
`check_limit_update` on it, then assign the upper limit and — for a
non-exact quantity — re-sample. -/
def set_upper_limit (env : MCEnv) (u : Unc) (upper_limit : XQ) : Unc × Option Err :=
  if limits_check_fails (u.limits.1, upper_limit) then (u, some .valueError)
  else if check_limit_update_fails u (u.limits.1, upper_limit) then (u, some .valueError)
  else
    let u := { u with limits := (u.limits.1, upper_limit) }
    if u.is_exact then (u, none) else sample_random_numbers env u

/-- The tail of `Unc.__init__` after the field assignments and
validations: with more than one given random value, re-derive `n_random`
from the array's length and `mean_value`/`sigma_low`/`sigma_up` from its
evaluation; otherwise run `set_n_random` with the given count (default
`int(1e6)`). -/
def init_pipeline (env : MCEnv) (u : Unc) (random_values : List ℚ)
    (n_random : Option Int) : Unc × Option Err :=
  if 1 < random_values.length then
    bindE (set_n_random env u (random_values.length : Int)) (fun u1 =>
      bindE (set_sigma_low (set_mean_value u1 (evaluate env random_values).1.1)
              (evaluate env random_values).1.2.1)
        (fun u2 => set_sigma_up u2 (evaluate env random_values).1.2.2))
  else set_n_random env u (n_random.getD 1000000)

/-- `Unc.__init__`: validate the sigmas (negative values raise
`ValueError`), default and validate the limits, derive `is_exact`, record
the seed (the process-wide instance counter, passed explicitly here),
store the given random values, then run the `init_pipeline` tail.  A
raising constructor yields no object, hence `Except`. -/
def Unc.init (env : MCEnv) (mean_value sigma_low sigma_up : ℚ)
    (limits : Option (XQ × XQ)) (store : Bool) (random_values : List ℚ)
    (n_random : Option Int) (seed : ℕ) : Except Err Unc :=
  if sigma_low < 0 then .error .valueError
  else if sigma_up < 0 then .error .valueError
  else if limits_check_fails (limits.getD (.ninf, .pinf)) then .error .valueError
  else
    match init_pipeline env
        { mean_value := mean_value, sigma_low := sigma_low, sigma_up := sigma_up,
          is_exact := decide (sigma_low = 0) && decide (sigma_up = 0),
          limits := limits.getD (.ninf, .pinf), seed := seed, store := store,
          random_values := random_values, n_random := 0 }
        random_values n_random with
    | (_, some e) => .error e
    | (u', none) => .ok u'

/-!  ## The operator engine (`algebra.py`)

Python's single `add`/`sub`/`mul`/`truediv`/`power` functions branch on
`isinstance(other, (int, float))`; the embedding splits each into a
`*_num` (scalar right operand) and a `*_unc` (Unc right operand) function.
`check_numeric` always succeeds for these two operand kinds and is a
no-op.  Each function returns the pair
`[(result triple, result random values), store_rand_result]` of the
source. -/

/-- The common general case: materialize (or reuse) both sample arrays,
truncate to the common size, and combine elementwise with `op`
(`array_size_min` warns on mismatch but always takes the minimum). -/
def combine_samples (env : MCEnv) (op : ℚ → ℚ → ℚ) (self other : Unc) : List ℚ :=
  let rand_self := if self.store then self.random_values
    else env.sample self.mean_value (self.sigma_low, self.sigma_up)
           self.limits self.seed self.n_random
  let rand_other := if other.store then other.random_values
    else env.sample other.mean_value (other.sigma_low, other.sigma_up)
           other.limits other.seed other.n_random
  let common_array_size := min rand_self.length rand_other.length
  List.zipWith op (rand_self.take common_array_size) (rand_other.take common_array_size)

/-- `algebra.add` for a scalar right operand. -/
def add_num (self : Unc) (other : ℚ) : ((ℚ × ℚ × ℚ) × List ℚ) × Bool :=
  (((self.mean_value + other, self.sigma_low, self.sigma_up),
    self.random_values.map (· + other)), self.store)

/-- `algebra.add` for an `Unc` right operand: equal seeds (self-correlation)
give the closed form `2*(mean, sigma_low, sigma_up)`; an exact operand is
absorbed without sampling it; otherwise both operands are sampled and the
elementwise sum is evaluated. -/
def add_unc (env : MCEnv) (self other : Unc) : ((ℚ × ℚ × ℚ) × List ℚ) × Bool :=
  let store_rand_result := self.store || other.store
  if self.seed = other.seed then
    (((2 * self.mean_value, 2 * self.sigma_low, 2 * self.sigma_up), [0]), store_rand_result)
  else if other.is_exact then
    (((self.mean_value + other.mean_value, self.sigma_low, self.sigma_up),
      self.random_values.map (· + other.mean_value)), store_rand_result)
  else if self.is_exact then
    (((self.mean_value + other.mean_value, other.sigma_low, other.sigma_up),
      other.random_values.map (self.mean_value + ·)), store_rand_result)
  else
    (evaluate env (combine_samples env (· + ·) self other), store_rand_result)

/-- `algebra.sub` for a scalar operand; `rsub` distinguishes
`__rsub__` (`other - self`) from `__sub__` (`self - other`). -/
def sub_num (self : Unc) (other : ℚ) (rsub : Bool) : ((ℚ × ℚ × ℚ) × List ℚ) × Bool :=
  if rsub then
    (((other - self.mean_value, self.sigma_low, self.sigma_up),
      self.random_values.map (other - ·)), self.store)
  else
    (((self.mean_value - other, self.sigma_low, self.sigma_up),
      self.random_values.map (· - other)), self.store)

/-- `algebra.sub` for an `Unc` right operand: equal seeds give exactly
`(0, 0, 0)`. -/
def sub_unc (env : MCEnv) (self other : Unc) : ((ℚ × ℚ × ℚ) × List ℚ) × Bool :=
  let store_rand_result := self.store || other.store
  if self.seed = other.seed then (((0, 0, 0), [0]), store_rand_result)
  else if other.is_exact then
    (((self.mean_value - other.mean_value, self.sigma_low, self.sigma_up),
      self.random_values.map (· - other.mean_value)), store_rand_result)
  else if self.is_exact then
    (((self.mean_value - other.mean_value, other.sigma_low, other.sigma_up),
      other.random_values.map (self.mean_value - ·)), store_rand_result)
  else
    (evaluate env (combine_samples env (· - ·) self other), store_rand_result)

/-- `algebra.mul` for a scalar right operand: mean and both sigmas are
multiplied by the scalar as-is (no sign handling). -/
def mul_num (self : Unc) (other : ℚ) : ((ℚ × ℚ × ℚ) × List ℚ) × Bool :=
  (((self.mean_value * other, self.sigma_low * other, self.sigma_up * other),
    self.random_values.map (· * other)), self.store)

/-- `algebra.mul` for an `Unc` right operand (no self-correlation shortcut
exists for products). -/
def mul_unc (env : MCEnv) (self other : Unc) : ((ℚ × ℚ × ℚ) × List ℚ) × Bool :=
  let store_rand_result := self.store || other.store
  if other.is_exact then
    (((self.mean_value * other.mean_value, self.sigma_low * other.mean_value,
       self.sigma_up * other.mean_value),
      self.random_values.map (· * other.mean_value)), store_rand_result)
  else if self.is_exact then
    (((self.mean_value * other.mean_value, other.sigma_low * self.mean_value,
       other.sigma_up * self.mean_value),
      other.random_values.map (self.mean_value * ·)), store_rand_result)
  else
    (evaluate env (combine_samples env (· * ·) self other), store_rand_result)

/-- `algebra.truediv` for a scalar right operand.  `self.mean_value/other`
is a plain-float division, so a zero scalar raises `ZeroDivisionError`. -/
def truediv_num (self : Unc) (other : ℚ) :
    Except Err (((ℚ × ℚ × ℚ) × List ℚ) × Bool) :=
  if other = 0 then .error .zeroDivisionError
  else .ok (((self.mean_value / other, self.sigma_low / other, self.sigma_up / other),
             self.random_values.map (· / other)), self.store)

/-- `algebra.truediv` for an `Unc` right operand: equal seeds give exactly
`(1, 0, 0)`; an exact divisor divides mean and sigmas directly (raising
`ZeroDivisionError` for an exact zero); an exact zero dividend gives
`(0, 0, 0)`; otherwise the elementwise ratio is evaluated with
`force_inside_shortest_coverage=True`.  Note that `store_rand_result`
picks up `other.store` only on the paths that sample the divisor
(`rand_other` is elementwise-divided by numpy, which does not raise on
zeros; the model's total `/` returns 0 there, a value the claims never
observe). -/
def truediv_unc (env : MCEnv) (self other : Unc) :
    Except Err (((ℚ × ℚ × ℚ) × List ℚ) × Bool) :=
  if self.seed = other.seed then .ok (((1, 0, 0), [1]), self.store)
  else if other.is_exact then
    if other.mean_value = 0 then .error .zeroDivisionError
    else .ok (((self.mean_value / other.mean_value, self.sigma_low / other.mean_value,
                self.sigma_up / other.mean_value),
               self.random_values.map (· / other.mean_value)), self.store)
  else
    let store_rand_result := self.store || other.store
    let rand_other := if other.store then other.random_values
      else env.sample other.mean_value (other.sigma_low, other.sigma_up)
             other.limits other.seed other.n_random
    if self.is_exact then
      if self.mean_value = 0 then .ok (((0, 0, 0), [0]), store_rand_result)
      else .ok (evaluate env (rand_other.map (self.mean_value / ·)), store_rand_result)
    else
      let rand_self := if self.store then self.random_values
        else env.sample self.mean_value (self.sigma_low, self.sigma_up)
               self.limits self.seed self.n_random
      let common_array_size := min rand_self.length rand_other.length
      .ok (evaluate env (List.zipWith (· / ·) (rand_self.take common_array_size)
              (rand_other.take common_array_size)), store_rand_result)

/-- `algebra.power` for a scalar exponent: an exact base gives the plain
power with zero uncertainty, otherwise the base's samples are raised
elementwise and evaluated. -/
def power_num (env : MCEnv) (self : Unc) (other : ℚ) : ((ℚ × ℚ × ℚ) × List ℚ) × Bool :=
  if self.is_exact then
    (((env.powQ self.mean_value other, 0, 0), [env.powQ self.mean_value other]), self.store)
  else
    let rand_self := if self.store then self.random_values
      else env.sample self.mean_value (self.sigma_low, self.sigma_up)
             self.limits self.seed self.n_random
    (evaluate env (rand_self.map (fun x => env.powQ x other)), self.store)

/-- `algebra.power` for an `Unc` exponent. -/
def power_unc (env : MCEnv) (self other : Unc) : ((ℚ × ℚ × ℚ) × List ℚ) × Bool :=
  let store_rand_result := self.store || other.store
  if self.is_exact then
    if other.is_exact then
      (((env.powQ self.mean_value other.mean_value, 0, 0),
        [env.powQ self.mean_value other.mean_value]), store_rand_result)
    else
      let rand_other := if other.store then other.random_values
        else env.sample other.mean_value (other.sigma_low, other.sigma_up)
               other.limits other.seed other.n_random
      (evaluate env (rand_other.map (fun y => env.powQ self.mean_value y)), store_rand_result)
  else
    (evaluate env (combine_samples env env.powQ self other), store_rand_result)

/-- `algebra.rpower` (`other ** self` for a scalar base). -/
def rpower_num (env : MCEnv) (self : Unc) (other : ℚ) : ((ℚ × ℚ × ℚ) × List ℚ) × Bool :=
  let rand_self := if self.store then self.random_values
    else env.sample self.mean_value (self.sigma_low, self.sigma_up)
           self.limits self.seed self.n_random
  (evaluate env (rand_self.map (fun x => env.powQ other x)), self.store)

/-!  ## The operator methods of `Unc` (`asym_uncertainty.py`)

Each `__op__` method runs the corresponding `algebra` function and builds
the result via the constructor:
`Unc(triple..., random_values=(rand if store_rand_result else [0.]),
store=store_rand_result, n_random=self.n_random)`.
`newSeed` stands for the process-wide instance counter consumed by the
constructor. -/

/-- The result-construction step shared by every operator method. -/
def mk_result (env : MCEnv) (newSeed : ℕ) (n_random : ℕ)
    (res : ((ℚ × ℚ × ℚ) × List ℚ) × Bool) : Except Err Unc :=
  Unc.init env res.1.1.1 res.1.1.2.1 res.1.1.2.2 none res.2
    (if res.2 then res.1.2 else [0]) (some (n_random : Int)) newSeed

/-- `Unc.__add__` with an `Unc` right operand. -/
def dunder_add_unc (env : MCEnv) (newSeed : ℕ) (self other : Unc) : Except Err Unc :=
  mk_result env newSeed self.n_random (add_unc env self other)

/-- `Unc.__add__` with a scalar right operand. -/
def dunder_add_num (env : MCEnv) (newSeed : ℕ) (self : Unc) (other : ℚ) : Except Err Unc :=
  mk_result env newSeed self.n_random (add_num self other)

/-- `Unc.__radd__` (scalar left operand): calls `add(self, other)`. -/
def dunder_radd_num (env : MCEnv) (newSeed : ℕ) (self : Unc) (other : ℚ) : Except Err Unc :=
  mk_result env newSeed self.n_random (add_num self other)

/-- `Unc.__sub__` with an `Unc` right operand. -/
def dunder_sub_unc (env : MCEnv) (newSeed : ℕ) (self other : Unc) : Except Err Unc :=
  mk_result env newSeed self.n_random (sub_unc env self other)

/-- `Unc.__sub__` with a scalar right operand. -/
def dunder_sub_num (env : MCEnv) (newSeed : ℕ) (self : Unc) (other : ℚ) : Except Err Unc :=
  mk_result env newSeed self.n_random (sub_num self other false)

/-- `Unc.__rsub__` (scalar left operand): `sub(self, other, rsub=True)`. -/
def dunder_rsub_num (env : MCEnv) (newSeed : ℕ) (self : Unc) (other : ℚ) : Except Err Unc :=
  mk_result env newSeed self.n_random (sub_num self other true)

/-- `Unc.__mul__` with an `Unc` right operand. -/
def dunder_mul_unc (env : MCEnv) (newSeed : ℕ) (self other : Unc) : Except Err Unc :=
  mk_result env newSeed self.n_random (mul_unc env self other)

/-- `Unc.__mul__` with a scalar right operand. -/
def dunder_mul_num (env : MCEnv) (newSeed : ℕ) (self : Unc) (other : ℚ) : Except Err Unc :=
  mk_result env newSeed self.n_random (mul_num self other)

/-- `Unc.__rmul__` (scalar left operand): calls `mul(self, other)`. -/
def dunder_rmul_num (env : MCEnv) (newSeed : ℕ) (self : Unc) (other : ℚ) : Except Err Unc :=
  mk_result env newSeed self.n_random (mul_num self other)

/-- `Unc.__truediv__` with an `Unc` right operand. -/
def dunder_truediv_unc (env : MCEnv) (newSeed : ℕ) (self other : Unc) : Except Err Unc :=
  match truediv_unc env self other with
  | .error e => .error e
  | .ok res => mk_result env newSeed self.n_random res

/-- `Unc.__truediv__` with a scalar right operand. -/
def dunder_truediv_num (env : MCEnv) (newSeed : ℕ) (self : Unc) (other : ℚ) :
    Except Err Unc :=
  match truediv_num self other with
  | .error e => .error e
  | .ok res => mk_result env newSeed self.n_random res

/-- `Unc.__rtruediv__` (scalar left operand): builds the intermediate
`Unc(other, 0., 0., n_random=self.n_random, store=self.store)` (consuming
one instance-counter value) and divides it by `self`. -/
def dunder_rtruediv_num (env : MCEnv) (interSeed newSeed : ℕ) (self : Unc) (other : ℚ) :
    Except Err Unc :=
  match Unc.init env other 0 0 none self.store [0] (some (self.n_random : Int)) interSeed with
  | .error e => .error e
  | .ok inter =>
    match truediv_unc env inter self with
    | .error e => .error e
    | .ok res => mk_result env newSeed self.n_random res

/-- `Unc.__pow__` with an `Unc` exponent. -/
def dunder_pow_unc (env : MCEnv) (newSeed : ℕ) (self other : Unc) : Except Err Unc :=
  mk_result env newSeed self.n_random (power_unc env self other)

/-- `Unc.__pow__` with a scalar exponent. -/
def dunder_pow_num (env : MCEnv) (newSeed : ℕ) (self : Unc) (other : ℚ) : Except Err Unc :=
  mk_result env newSeed self.n_random (power_num env self other)

/-- `Unc.__rpow__` (scalar base). -/
def dunder_rpow_num (env : MCEnv) (newSeed : ℕ) (self : Unc) (other : ℚ) : Except Err Unc :=
  mk_result env newSeed self.n_random (rpower_num env self other)

/-- `Unc.__neg__`: returns
`Unc(-mean_value, sigma_low, sigma_up, random_values=-random_values if
store else [0.], store=store, n_random=n_random)` — the sigmas are passed
through unswapped. -/
def dunder_neg (env : MCEnv) (newSeed : ℕ) (self : Unc) : Except Err Unc :=
  Unc.init env (-self.mean_value) self.sigma_low self.sigma_up none self.store
    (if self.store then self.random_values.map (fun x => -x) else [0])
    (some (self.n_random : Int)) newSeed

/-!  ## `mc_statistics.randn_asym` (validation-level model, for the sampler
contract)

The post-validation draw is `env.draw` applied to the *effective* RNG
state: a given valid seed replaces the ambient `numpy.random` state
(`rngState`), otherwise the ambient state is used.  The validation control
flow is embedded exactly and in source order. -/

/-- The dynamic type of the `random_seed` argument: absent, an integer, or
some non-integer value (float, string, ...). -/
inductive RandomSeed where
  | noSeed : RandomSeed
  | intSeed : Int → RandomSeed
  | nonIntSeed : RandomSeed
deriving DecidableEq, Repr

/-- `mc_statistics.randn_asym`: in source order, (1) with
`conserve_mean_value` the weight `sigma[1]/(sigma[0]+sigma[1])` is
computed (a zero sigma sum raises `ZeroDivisionError`) and combining the
option with explicit limits raises `RuntimeWarning`; (2) the limits and
sigma arrays are validated; (3) a given seed must be a non-negative
integer (`ValueError` otherwise) and seeds the generator; (4) the branch
on the limits performs the draw — abstracted as `env.draw` on the
effective RNG state.  (For `n_random == 1` the source returns a scalar
instead of a 1-array; the model always returns the array.) -/
def randn_asym (env : MCEnv) (rngState : ℕ) (mean_value : ℚ) (sigma : ℚ × ℚ)
    (limits : Option (XQ × XQ)) (conserve_mean_value : Bool)
    (random_seed : RandomSeed) (n_random : ℕ) : Except Err (List ℚ) :=
  if conserve_mean_value && decide (sigma.1 + sigma.2 = 0) then .error .zeroDivisionError
  else if conserve_mean_value && limits.isSome then .error .runtimeWarningError
  else
    let lims := limits.getD (.ninf, .pinf)
    if limits_check_fails lims then .error .valueError
    else if sigma.1 < 0 || sigma.2 < 0 then .error .valueError
    else
      match random_seed with
      | .noSeed =>
        .ok (env.draw rngState mean_value sigma lims conserve_mean_value n_random)
      | .intSeed s =>
        if 0 ≤ s then
          .ok (env.draw s.toNat mean_value sigma lims conserve_mean_value n_random)
        else .error .valueError
      | .nonIntSeed => .error .valueError

/-!  ## Concrete environments and states used by counterexamples and
witnesses -/

/-- A concrete environment whose mode estimator is the embedded histogram
estimate (the source's fallback estimator) and whose sampler spreads `n`
values starting at the mean. -/
def histEnv : MCEnv where
  sample := fun m _ _ _ n => (List.range n).map (fun i => m + (i : ℚ))
  resample := fun kept n => (List.range n).map (fun _ => kept.headD 0)
  mode := fun data _ => hist_mode data
  powQ := fun x y => x * y + 1
  draw := fun st m _ _ _ n => (List.range n).map (fun i => m + (st : ℚ) + (i : ℚ))

/-- A second concrete environment, with different numerics, used to
instantiate environment-independence statements. -/
def zeroEnv : MCEnv where
  sample := fun m _ _ _ n => List.replicate n m
  resample := fun _ n => List.replicate n 0
  mode := fun _ s_cov => s_cov.1
  powQ := fun _ _ => 1
  draw := fun _ _ _ _ _ n => List.replicate n 0

/-- The `limits` field of a successfully constructed result
(`(-inf, inf)` conventionally for a failed construction, which yields no
object). -/
def ok_limits : Except Err Unc → XQ × XQ
  | .ok u => u.limits
  | .error _ => (.ninf, .pinf)

/-- Decidable equality of constructor results (not derived automatically
for `Except`). -/
instance : DecidableEq (Except Err Unc)
  | .error a, .error b =>
    if h : a = b then .isTrue (by rw [h]) else .isFalse (by simp [h])
  | .error _, .ok _ => .isFalse (by simp)
  | .ok _, .error _ => .isFalse (by simp)
  | .ok a, .ok b =>
    if h : a = b then .isTrue (by rw [h]) else .isFalse (by simp [h])

/-!  ## Concrete `Unc` states

These are states reachable by the source's constructor: the field values
are mutually consistent (`is_exact` reflects the sigmas, `random_values`
has length `n_random` exactly when `store` is set, sigmas are
nonnegative). -/

/-- A non-exact quantity that retains samples (`store=True`). -/
def uStore : Unc := ⟨1, 1, 1, false, (.ninf, .pinf), 0, true, [0, 2], 2⟩

/-- A non-exact quantity without sample retention. -/
def uPlain : Unc := ⟨3, 1, 2, false, (.ninf, .pinf), 7, false, [0], 2⟩

/-- An exact quantity (both sigmas zero), seed distinct from the others. -/
def uExact : Unc := ⟨5, 0, 0, true, (.ninf, .pinf), 1, false, [0], 2⟩

/-- A non-exact quantity with asymmetric sigmas, without retention. -/
def uAsym : Unc := ⟨1, 1, 2, false, (.ninf, .pinf), 0, false, [0], 2⟩

/-- A non-exact quantity with retained samples in `[-1/2, 1/2]`. -/
def uRetained : Unc := ⟨1, 1/2, 1/2, false, (.ninf, .pinf), 0, true, [-1/2, 1/2], 2⟩

/-- A non-exact quantity truncated to `[0, 1]`. -/
def uBounded : Unc := ⟨0, 1, 1, false, (.fin 0, .fin 1), 3, false, [0], 2⟩

/-!  ## Claim conclusions (stated as predicates over the embedded
definitions so the witnesses can reuse them verbatim) -/

/-- Conclusion of (amended) claim C1 for a quantity `a`: `a+a`, `a-a` and
`a/a` are the exact closed forms, and the results do not depend on the
sampling environment (no Monte-Carlo sampling is consulted). -/
def SelfCorrelationExact (env env' : MCEnv) (newSeed : ℕ) (a : Unc) : Prop :=
  (∃ r, dunder_add_unc env newSeed a a = .ok r ∧ r.mean_value = 2 * a.mean_value ∧
        r.sigma_low = 2 * a.sigma_low ∧ r.sigma_up = 2 * a.sigma_up) ∧
  (∃ r, dunder_sub_unc env newSeed a a = .ok r ∧ r.mean_value = 0 ∧
        r.sigma_low = 0 ∧ r.sigma_up = 0) ∧
  (∃ r, dunder_truediv_unc env newSeed a a = .ok r ∧ r.mean_value = 1 ∧
        r.sigma_low = 0 ∧ r.sigma_up = 0) ∧
  dunder_add_unc env newSeed a a = dunder_add_unc env' newSeed a a ∧
  dunder_sub_unc env newSeed a a = dunder_sub_unc env' newSeed a a ∧
  dunder_truediv_unc env newSeed a a = dunder_truediv_unc env' newSeed a a

/-- Conclusion of (amended) claim C4 for a quantity `a`: negation keeps the
sigma assignment (no swap) and scalar multiplication scales mean and both
sigmas by the scalar as-is, so a negative scalar on a non-exact quantity
makes the result construction fail on the negative-sigma check. -/
def NegationMulSignPolicy (env env' : MCEnv) (newSeed : ℕ) (a : Unc) : Prop :=
  (∃ r, dunder_neg env newSeed a = .ok r ∧ r.mean_value = -a.mean_value ∧
        r.sigma_low = a.sigma_low ∧ r.sigma_up = a.sigma_up) ∧
  (∀ k : ℚ, 0 < k → ∃ r, dunder_mul_num env newSeed a k = .ok r ∧
        r.mean_value = a.mean_value * k ∧ r.sigma_low = a.sigma_low * k ∧
        r.sigma_up = a.sigma_up * k) ∧
  (∀ k : ℚ, k < 0 → (0 < a.sigma_low ∨ 0 < a.sigma_up) →
        dunder_mul_num env newSeed a k = .error .valueError) ∧
  dunder_neg env newSeed a = dunder_neg env' newSeed a

/-- Conclusion of (amended) claim C5 for quantities `a`, `b`: `a+b` shifts
the mean and keeps `a`'s sigmas, independently of the sampling
environment (neither operand is sampled). -/
def ExactOperandAdd (env env' : MCEnv) (newSeed : ℕ) (a b : Unc) : Prop :=
  (∃ r, dunder_add_unc env newSeed a b = .ok r ∧
        r.mean_value = a.mean_value + b.mean_value ∧
        r.sigma_low = a.sigma_low ∧ r.sigma_up = a.sigma_up) ∧
  dunder_add_unc env newSeed a b = dunder_add_unc env' newSeed a b

/-- The `is_exact` invariant of claim C8: `is_exact` holds exactly when
both sigmas are zero. -/
def UncInv (u : Unc) : Prop :=
  u.is_exact = (decide (u.sigma_low = 0) && decide (u.sigma_up = 0))

/-- The conclusion of claim C2 for an input array `rand`: the window is
`floor(0.6827 * n)` and the returned interval is `[x[i], x[i+k]]` for an
index `i` minimizing `|x[i+k] - x[i]|` over all valid window positions of
the sorted array `x`. -/
def ShortestCoverageMinimal (rand : List ℚ) : Prop :=
  coverage_window ((6827 : ℚ) / 100) rand.length
      = (Int.floor ((6827 / 10000 : ℚ) * rand.length)).toNat ∧
  ∃ i : ℕ,
    i + coverage_window ((6827 : ℚ) / 100) rand.length + 1 ≤ rand.length ∧
    shortest_coverage (cdf rand) ((6827 : ℚ) / 100) =
      ((cdf rand).1.getD i 0,
       (cdf rand).1.getD (i + coverage_window ((6827 : ℚ) / 100) rand.length) 0) ∧
    ∀ j : ℕ, j + coverage_window ((6827 : ℚ) / 100) rand.length + 1 ≤ rand.length →
      |(cdf rand).1.getD (i + coverage_window ((6827 : ℚ) / 100) rand.length) 0 -
        (cdf rand).1.getD i 0| ≤
      |(cdf rand).1.getD (j + coverage_window ((6827 : ℚ) / 100) rand.length) 0 -
        (cdf rand).1.getD j 0|

theorem ratFloor_eq_intFloor (q : ℚ) : q.floor = ⌊q⌋ :=
  (Rat.floor_def' q).trans Rat.floor_def.symm

theorem length_insertSorted (x : ℚ) :
    ∀ l : List ℚ, (insertSorted x l).length = l.length + 1
  | [] => rfl
  | y :: t => by
    by_cases h : x ≤ y
    · simp [insertSorted, h]
    · simp [insertSorted, h, length_insertSorted x t]

theorem length_sortQ : ∀ l : List ℚ, (sortQ l).length = l.length
  | [] => rfl
  | x :: t => by simp [sortQ, length_insertSorted, length_sortQ t]

theorem minList_le_getD : ∀ (l : List ℚ) (j : ℕ), j < l.length → minList l ≤ l.getD j 0
  | [x], 0, _ => le_refl _
  | x :: y :: t, 0, _ => by
    simp only [minList, List.getD_cons_zero]
    exact min_le_left x (minList (y :: t))
  | x :: y :: t, j + 1, h => by
    have ih := minList_le_getD (y :: t) j (Nat.lt_of_succ_lt_succ h)
    calc minList (x :: y :: t) ≤ minList (y :: t) := by
          simp only [minList]
          exact min_le_right x (minList (y :: t))
      _ ≤ (y :: t).getD j 0 := ih
      _ = (x :: y :: t).getD (j + 1) 0 := (List.getD_cons_succ).symm

theorem argminList_lt_length : ∀ (l : List ℚ), l ≠ [] → argminList l < l.length
  | [_], _ => by simp [argminList]
  | x :: y :: t, _ => by
    by_cases h : x ≤ minList (y :: t)
    · simp [argminList, h]
    · have ih := argminList_lt_length (y :: t) (by simp)
      simp only [argminList, if_neg h, List.length_cons] at ih ⊢
      omega

theorem getD_argminList : ∀ (l : List ℚ), l ≠ [] → l.getD (argminList l) 0 = minList l
  | [x], _ => by simp [argminList, minList]
  | x :: y :: t, _ => by
    by_cases h : x ≤ minList (y :: t)
    · simp [argminList, h, minList, min_eq_left h]
    · have ih := getD_argminList (y :: t) (by simp)
      have hlt : minList (y :: t) ≤ x := le_of_lt (lt_of_not_le h)
      rw [show argminList (x :: y :: t) = argminList (y :: t) + 1 by
            simp [argminList, if_neg h],
          List.getD_cons_succ, ih,
          show minList (x :: y :: t) = min x (minList (y :: t)) from rfl,
          min_eq_right hlt]

theorem getD_argminList_le (l : List ℚ) (hne : l ≠ []) :
    ∀ j : ℕ, j < l.length → l.getD (argminList l) 0 ≤ l.getD j 0 := by
  intro j hj
  rw [getD_argminList l hne]
  exact minList_le_getD l j hj

/-- Claim C2: for every array of at least two sampled values,
`shortest_coverage` applied to the empirical CDF returns
`[x[i], x[i+k]]` with `k = floor(0.6827 * n)` and `i` an index minimizing
`|x[i+k] - x[i]|` over all valid window positions of the sorted array. -/
theorem claim_C2_shortest_coverage (rand : List ℚ) (h2 : 2 ≤ rand.length) :
    ShortestCoverageMinimal rand := by
  have hlen : (cdf rand).1.length = rand.length := by
    simp [cdf, length_sortQ]
  have hwin : coverage_window ((6827 : ℚ) / 100) rand.length
      = (Int.floor ((6827 / 10000 : ℚ) * rand.length)).toNat := by
    unfold coverage_window
    rw [show (6827 : ℚ) / 100 * (1/100) * (rand.length : ℚ)
          = (6827 / 10000 : ℚ) * rand.length by ring,
      ratFloor_eq_intFloor]
  refine ⟨hwin, ?_⟩
  set n := rand.length with hn
  set k := coverage_window ((6827 : ℚ) / 100) n with hkdef
  have hq0 : (0 : ℚ) ≤ (6827 / 10000 : ℚ) * n := by positivity
  have hqn : (6827 / 10000 : ℚ) * n < n := by
    have hn0 : (0 : ℚ) < n := by
      have : (2 : ℚ) ≤ n := by exact_mod_cast h2
      linarith
    nlinarith
  have hfl : (0 : ℤ) ≤ Int.floor ((6827 / 10000 : ℚ) * n) := Int.floor_nonneg.mpr hq0
  have hfln : Int.floor ((6827 / 10000 : ℚ) * n) < (n : ℤ) := by
    rw [Int.floor_lt]
    exact_mod_cast hqn
  have hkn : k < n := by
    have hcast : (k : ℤ) = Int.floor ((6827 / 10000 : ℚ) * n) := by
      rw [hwin, Int.toNat_of_nonneg hfl]
    have : (k : ℤ) < (n : ℤ) := hcast ▸ hfln
    exact_mod_cast this
  set dists := (List.range (n - k)).map
    (fun j => |(cdf rand).1.getD (j + k) 0 - (cdf rand).1.getD j 0|) with hdists
  have hdlen : dists.length = n - k := by simp [hdists]
  have hdne : dists ≠ [] := by
    apply List.ne_nil_of_length_pos
    rw [hdlen]
    omega
  have hgetD : ∀ j : ℕ, j < n - k →
      dists.getD j 0 = |(cdf rand).1.getD (j + k) 0 - (cdf rand).1.getD j 0| := by
    intro j hj
    rw [List.getD_eq_getElem dists 0 (by rw [hdlen]; exact hj)]
    simp [hdists]
  set i := argminList dists with hidef
  have hi : i < n - k := by
    have := argminList_lt_length dists hdne
    rwa [hdlen] at this
  refine ⟨i, by omega, ?_, ?_⟩
  · show shortest_coverage (cdf rand) ((6827 : ℚ) / 100) = _
    simp only [shortest_coverage]
    rw [hlen]
  · intro j hj
    have hj' : j < n - k := by omega
    have := getD_argminList_le dists hdne j (by rw [hdlen]; exact hj')
    rwa [hgetD i hi, hgetD j hj'] at this

/-- Witness for claim C2 at the concrete sample `[3, 1, 2]`. -/
theorem claim_C2_shortest_coverage_witness :
    2 ≤ ([3, 1, 2] : List ℚ).length ∧ ShortestCoverageMinimal [3, 1, 2] :=
  ⟨by decide, claim_C2_shortest_coverage [3, 1, 2] (by decide)⟩

theorem init_simple (env : MCEnv) (m sl su : ℚ) (n : ℕ) (sd : ℕ)
    (hsl : 0 ≤ sl) (hsu : 0 ≤ su) (hn : 2 ≤ n) :
    Unc.init env m sl su none false [0] (some (n : Int)) sd =
      .ok { mean_value := m, sigma_low := sl, sigma_up := su,
            is_exact := decide (sl = 0) && decide (su = 0),
            limits := (.ninf, .pinf), seed := sd, store := false,
            random_values := [0], n_random := n } := by
  have h2 : ¬ ((n : Int) < 2) := by exact_mod_cast not_lt.mpr hn
  simp only [Unc.init, init_pipeline, set_n_random, if_neg (not_lt.mpr hsl),
    if_neg (not_lt.mpr hsu), Option.getD_some, Option.getD_none,
    List.length_cons, List.length_nil, if_neg h2, Int.toNat_natCast]
  norm_num [limits_check_fails, xqLt]

/-- Claim C1 (amended): for every non-exact quantity that does not retain
samples (`store=False`, the default), `a+a` is exactly
`(2·mean, 2·sigma_low, 2·sigma_up)`, `a-a` is exactly `(0, 0, 0)` and
`a/a` is exactly `(1, 0, 0)`, with no Monte-Carlo sampling involved
(the results are independent of the sampling environment). -/
theorem claim_C1_self_correlation (env env' : MCEnv) (newSeed : ℕ) (a : Unc)
    (hstore : a.store = false) (hexact : a.is_exact = false)
    (hsl : 0 ≤ a.sigma_low) (hsu : 0 ≤ a.sigma_up) (hn : 2 ≤ a.n_random) :
    SelfCorrelationExact env env' newSeed a := by
  have hadd : ∀ e : MCEnv, dunder_add_unc e newSeed a a =
      .ok { mean_value := 2 * a.mean_value, sigma_low := 2 * a.sigma_low,
            sigma_up := 2 * a.sigma_up,
            is_exact := decide (2 * a.sigma_low = 0) && decide (2 * a.sigma_up = 0),
            limits := (.ninf, .pinf), seed := newSeed, store := false,
            random_values := [0], n_random := a.n_random } := by
    intro e
    have : add_unc e a a = (((2 * a.mean_value, 2 * a.sigma_low, 2 * a.sigma_up), [0]),
        a.store || a.store) := by
      simp [add_unc]
    simp only [dunder_add_unc, this, mk_result, hstore, Bool.or_false, if_neg Bool.false_ne_true]
    exact init_simple e _ _ _ _ newSeed (by positivity) (by positivity) hn
  have hsub : ∀ e : MCEnv, dunder_sub_unc e newSeed a a =
      .ok { mean_value := 0, sigma_low := 0, sigma_up := 0,
            is_exact := decide ((0 : ℚ) = 0) && decide ((0 : ℚ) = 0),
            limits := (.ninf, .pinf), seed := newSeed, store := false,
            random_values := [0], n_random := a.n_random } := by
    intro e
    have : sub_unc e a a = (((0, 0, 0), [0]), a.store || a.store) := by
      simp [sub_unc]
    simp only [dunder_sub_unc, this, mk_result, hstore, Bool.or_false, if_neg Bool.false_ne_true]
    exact init_simple e _ _ _ _ newSeed le_rfl le_rfl hn
  have hdiv : ∀ e : MCEnv, dunder_truediv_unc e newSeed a a =
      .ok { mean_value := 1, sigma_low := 0, sigma_up := 0,
            is_exact := decide ((0 : ℚ) = 0) && decide ((0 : ℚ) = 0),
            limits := (.ninf, .pinf), seed := newSeed, store := false,
            random_values := [0], n_random := a.n_random } := by
    intro e
    have : truediv_unc e a a = .ok (((1, 0, 0), [1]), a.store) := by
      simp [truediv_unc]
    simp only [dunder_truediv_unc, this, mk_result, hstore, if_neg Bool.false_ne_true]
    exact init_simple e _ _ _ _ newSeed le_rfl le_rfl hn
  exact ⟨⟨_, hadd env, rfl, rfl, rfl⟩, ⟨_, hsub env, rfl, rfl, rfl⟩,
         ⟨_, hdiv env, rfl, rfl, rfl⟩,
         (hadd env).trans (hadd env').symm, (hsub env).trans (hsub env').symm,
         (hdiv env).trans (hdiv env').symm⟩

/-- Witness for claim C1 at a concrete non-retaining quantity. -/
theorem claim_C1_self_correlation_witness :
    (uPlain.store = false ∧ uPlain.is_exact = false ∧ 0 ≤ uPlain.sigma_low ∧
     0 ≤ uPlain.sigma_up ∧ 2 ≤ uPlain.n_random) ∧
    SelfCorrelationExact histEnv zeroEnv 9 uPlain :=
  ⟨⟨by decide, by decide, by decide, by decide, by decide⟩,
   claim_C1_self_correlation histEnv zeroEnv 9 uPlain (by decide) (by decide)
     (by decide) (by decide) (by decide)⟩

/-- Counterexample to claim C1 as stated: for the non-exact retaining
quantity `uStore` (`store=True`, `mean=1`), the result of `a+a` is built
by the constructor with `store=True` and a length-1 sample array, which
makes it draw a fresh Monte-Carlo sample and re-derive its statistics
from it: under the histogram-mode environment the mean of `a+a` is `9/4`,
not `2·mean = 2`. -/
theorem claim_C1_counterexample :
    uStore.is_exact = false ∧
    (dunder_add_unc histEnv 1 uStore uStore).toOption.map Unc.mean_value = some (9/4) ∧
    (dunder_add_unc histEnv 1 uStore uStore).toOption.map Unc.mean_value ≠
      some (2 * uStore.mean_value) ∧
    (dunder_add_unc histEnv 1 uStore uStore).toOption ≠
      (dunder_add_unc zeroEnv 1 uStore uStore).toOption := by
  refine ⟨by decide, by decide, by decide, by decide⟩

theorem init_neg_sigma (env : MCEnv) (m sl su : ℚ) (lims : Option (XQ × XQ))
    (st : Bool) (rv : List ℚ) (n : Option Int) (sd : ℕ)
    (h : sl < 0 ∨ (0 ≤ sl ∧ su < 0)) :
    Unc.init env m sl su lims st rv n sd = .error .valueError := by
  rcases h with h | ⟨hsl, hsu⟩
  · simp only [Unc.init, if_pos h]
  · simp only [Unc.init, if_neg (not_lt.mpr hsl), if_pos hsu]

/-- Claim C4 (amended): for every quantity without sample retention,
unary negation returns `(-mean, sigma_low, sigma_up)` — the sigmas are
*not* swapped — and multiplication by a scalar `k` scales mean and both
sigmas by `k` as-is, so for a negative `k` on a non-exact quantity the
result construction fails with the negative-sigma `ValueError` instead of
returning a swapped-sigma quantity. -/
theorem claim_C4_sign_policy (env env' : MCEnv) (newSeed : ℕ) (a : Unc)
    (hstore : a.store = false) (hsl : 0 ≤ a.sigma_low) (hsu : 0 ≤ a.sigma_up)
    (hn : 2 ≤ a.n_random) :
    NegationMulSignPolicy env env' newSeed a := by
  have hneg : ∀ e : MCEnv, dunder_neg e newSeed a =
      .ok { mean_value := -a.mean_value, sigma_low := a.sigma_low,
            sigma_up := a.sigma_up,
            is_exact := decide (a.sigma_low = 0) && decide (a.sigma_up = 0),
            limits := (.ninf, .pinf), seed := newSeed, store := false,
            random_values := [0], n_random := a.n_random } := by
    intro e
    simp only [dunder_neg, hstore, Bool.false_eq_true, if_false]
    exact init_simple e _ _ _ _ newSeed hsl hsu hn
  refine ⟨⟨_, hneg env, rfl, rfl, rfl⟩, ?_, ?_, (hneg env).trans (hneg env').symm⟩
  · intro k hk
    have : dunder_mul_num env newSeed a k =
        .ok { mean_value := a.mean_value * k, sigma_low := a.sigma_low * k,
              sigma_up := a.sigma_up * k,
              is_exact := decide (a.sigma_low * k = 0) && decide (a.sigma_up * k = 0),
              limits := (.ninf, .pinf), seed := newSeed, store := false,
              random_values := [0], n_random := a.n_random } := by
      simp only [dunder_mul_num, mul_num, mk_result, hstore, Bool.false_eq_true, if_false]
      exact init_simple env _ _ _ _ newSeed (mul_nonneg hsl hk.le) (mul_nonneg hsu hk.le) hn
    exact ⟨_, this, rfl, rfl, rfl⟩
  · intro k hk hpos
    show mk_result env newSeed a.n_random (mul_num a k) = .error .valueError
    simp only [mul_num, mk_result]
    rcases eq_or_lt_of_le hsl with hsl0 | hsl0
    · rcases hpos with h | h
      · exact absurd hsl0.symm (ne_of_gt h)
      · exact init_neg_sigma env _ _ _ _ _ _ _ _
          (Or.inr ⟨by rw [← hsl0, zero_mul], mul_neg_of_pos_of_neg h hk⟩)
    · exact init_neg_sigma env _ _ _ _ _ _ _ _ (Or.inl (mul_neg_of_pos_of_neg hsl0 hk))

/-- Witness for claim C4 at a concrete asymmetric quantity. -/
theorem claim_C4_sign_policy_witness :
    (uAsym.store = false ∧ 0 ≤ uAsym.sigma_low ∧ 0 ≤ uAsym.sigma_up ∧
     2 ≤ uAsym.n_random) ∧
    NegationMulSignPolicy histEnv zeroEnv 1 uAsym :=
  ⟨⟨by decide, by decide, by decide, by decide⟩,
   claim_C4_sign_policy histEnv zeroEnv 1 uAsym (by decide) (by decide)
     (by decide) (by decide)⟩

/-- Counterexample to claim C4 as stated: for `uAsym` with
`sigma_low = 1 ≠ 2 = sigma_up`, negation keeps `sigma_low = 1` instead of
swapping to `sigma_up = 2`; and multiplication by the negative scalar `-1`
does not return a quantity with swapped, `|k|`-scaled sigmas — it raises
`ValueError` on the negative-sigma check. -/
theorem claim_C4_counterexample :
    (dunder_neg histEnv 1 uAsym).toOption.map Unc.sigma_low = some 1 ∧
    uAsym.sigma_up = 2 ∧
    (dunder_neg histEnv 1 uAsym).toOption.map Unc.sigma_low ≠ some uAsym.sigma_up ∧
    dunder_mul_num histEnv 1 uAsym (-1) = .error .valueError := by
  refine ⟨by decide, by decide, by decide, by decide⟩

/-- Claim C5 (amended): for quantities without sample retention, adding an
exact quantity `b` (distinct seed) shifts the mean by `b.mean` and keeps
`a`'s sigmas exactly, with no sampling of either operand (the result is
independent of the sampling environment). -/
theorem claim_C5_exact_operand_add (env env' : MCEnv) (newSeed : ℕ) (a b : Unc)
    (hastore : a.store = false) (hbstore : b.store = false)
    (hbex : b.is_exact = true) (hseed : a.seed ≠ b.seed)
    (hsl : 0 ≤ a.sigma_low) (hsu : 0 ≤ a.sigma_up) (hn : 2 ≤ a.n_random) :
    ExactOperandAdd env env' newSeed a b := by
  have hadd : ∀ e : MCEnv, dunder_add_unc e newSeed a b =
      .ok { mean_value := a.mean_value + b.mean_value, sigma_low := a.sigma_low,
            sigma_up := a.sigma_up,
            is_exact := decide (a.sigma_low = 0) && decide (a.sigma_up = 0),
            limits := (.ninf, .pinf), seed := newSeed, store := false,
            random_values := [0], n_random := a.n_random } := by
    intro e
    have hres : add_unc e a b =
        (((a.mean_value + b.mean_value, a.sigma_low, a.sigma_up),
          a.random_values.map (· + b.mean_value)), a.store || b.store) := by
      simp [add_unc, if_neg hseed, hbex]
    simp only [dunder_add_unc, hres, mk_result, hastore, hbstore, Bool.or_self,
      Bool.false_eq_true, if_false]
    exact init_simple e _ _ _ _ newSeed hsl hsu hn
  exact ⟨⟨_, hadd env, rfl, rfl, rfl⟩, (hadd env).trans (hadd env').symm⟩

/-- Witness for claim C5 at concrete quantities. -/
theorem claim_C5_exact_operand_add_witness :
    (uPlain.store = false ∧ uExact.store = false ∧ uExact.is_exact = true ∧
     uPlain.seed ≠ uExact.seed ∧ 0 ≤ uPlain.sigma_low ∧ 0 ≤ uPlain.sigma_up ∧
     2 ≤ uPlain.n_random) ∧
    ExactOperandAdd histEnv zeroEnv 9 uPlain uExact :=
  ⟨⟨by decide, by decide, by decide, by decide, by decide, by decide, by decide⟩,
   claim_C5_exact_operand_add histEnv zeroEnv 9 uPlain uExact (by decide) (by decide)
     (by decide) (by decide) (by decide) (by decide) (by decide)⟩

/-- Counterexample to claim C5 as stated: for the retaining quantity
`uStore` (`sigma_low = 1`) plus the exact `uExact`, the result is rebuilt
from `uStore`'s shifted retained samples and its statistics re-derived
from them: under the histogram-mode environment `(a+b).sigma_low = 1/2`,
not `a.sigma_low = 1` (the claim quantifies over *every* quantity `a`). -/
theorem claim_C5_counterexample :
    uExact.is_exact = true ∧ uStore.seed ≠ uExact.seed ∧
    (dunder_add_unc histEnv 2 uStore uExact).toOption.map Unc.sigma_low = some (1/2) ∧
    (dunder_add_unc histEnv 2 uStore uExact).toOption.map Unc.sigma_low ≠
      some uStore.sigma_low := by
  refine ⟨by decide, by decide, by decide, by decide⟩

/-- Claim C6: the sampler is deterministic in the seed — with the same
mean, sigma pair, limits, count and the same non-negative integer seed,
the result does not depend on the ambient RNG state (so two such calls
return identical arrays); a given seed that is not a non-negative integer
makes the call fail; and requesting mean-conservation together with
explicit bounds makes the call fail. -/
theorem claim_C6_randn_asym (env : MCEnv) (st st' : ℕ) (m : ℚ) (s : ℚ × ℚ)
    (lims : Option (XQ × XQ)) (l : XQ × XQ) (n : ℕ) (k kneg : Int)
    (cm : Bool) (rs : RandomSeed) (hk : 0 ≤ k) (hkneg : kneg < 0) :
    (randn_asym env st m s lims false (.intSeed k) n
       = randn_asym env st' m s lims false (.intSeed k) n) ∧
    (∃ e, randn_asym env st m s lims cm .nonIntSeed n = .error e) ∧
    (∃ e, randn_asym env st m s lims cm (.intSeed kneg) n = .error e) ∧
    (∃ e, randn_asym env st m s (some l) true rs n = .error e) := by
  refine ⟨rfl, ?_, ?_, ?_⟩
  · simp only [randn_asym]
    split_ifs <;> exact ⟨_, rfl⟩
  · simp only [randn_asym, if_neg (not_le.mpr hkneg)]
    split_ifs <;> exact ⟨_, rfl⟩
  · simp only [randn_asym, Bool.true_and, Option.isSome_some]
    split_ifs <;> exact ⟨_, rfl⟩

/-- Witness for claim C6 at concrete arguments. -/
theorem claim_C6_randn_asym_witness :
    ((0 : Int) ≤ 5 ∧ (-1 : Int) < 0) ∧
    ((randn_asym histEnv 3 1 (1, 1) none false (.intSeed 5) 4
       = randn_asym histEnv 8 1 (1, 1) none false (.intSeed 5) 4) ∧
     (∃ e, randn_asym histEnv 3 1 (1, 1) none false .nonIntSeed 4 = .error e) ∧
     (∃ e, randn_asym histEnv 3 1 (1, 1) none false (.intSeed (-1)) 4 = .error e) ∧
     (∃ e, randn_asym histEnv 3 1 (1, 1) (some (.ninf, .pinf)) true .noSeed 4
        = .error e)) :=
  ⟨⟨by decide, by decide⟩,
   claim_C6_randn_asym histEnv 3 8 1 (1, 1) none (.ninf, .pinf) 4 5 (-1) false
     .noSeed (by decide) (by decide)⟩

theorem xqLe_of_xqLt : ∀ {a b : XQ}, xqLt a b = true → xqLe a b = true := by
  intro a b h
  cases a <;> cases b <;> simp_all [xqLt, xqLe]
  exact le_of_lt h

/-- Claim C7 (amended): the three bound setters raise `ValueError` and
leave the state untouched whenever the new limits are strictly disjoint
from the old ones (the validation happens before any mutation); this does
*not* extend to every raising call — see the counterexample, where the
re-sampling failure after a legitimate limit update leaves the limits
mutated. -/
theorem claim_C7_bounds_setters (env : MCEnv) (u : Unc) (nl : XQ × XQ) (x y : XQ)
    (h1 : xqLt u.limits.2 nl.1 = true ∨ xqLt nl.2 u.limits.1 = true)
    (h2 : xqLt u.limits.2 x = true) (h3 : xqLt y u.limits.1 = true) :
    set_limits env u nl = (u, some .valueError) ∧
    set_lower_limit env u x = (u, some .valueError) ∧
    set_upper_limit env u y = (u, some .valueError) := by
  refine ⟨?_, ?_, ?_⟩
  · cases hf : limits_check_fails nl with
    | true => simp [set_limits, hf]
    | false =>
      have hc : check_limit_update_fails u nl = true := by
        rcases h1 with h | h
        · simp [check_limit_update_fails, xqLe_of_xqLt h]
        · simp [check_limit_update_fails, xqLe_of_xqLt h]
      simp [set_limits, hf, hc]
  · cases hf : limits_check_fails (x, u.limits.2) with
    | true => simp [set_lower_limit, hf]
    | false =>
      have hc : check_limit_update_fails u (x, u.limits.2) = true := by
        simp [check_limit_update_fails, xqLe_of_xqLt h2]
      simp [set_lower_limit, hf, hc]
  · cases hf : limits_check_fails (u.limits.1, y) with
    | true => simp [set_upper_limit, hf]
    | false =>
      have hc : check_limit_update_fails u (u.limits.1, y) = true := by
        simp [check_limit_update_fails, xqLe_of_xqLt h3]
      simp [set_upper_limit, hf, hc]

/-- Witness for claim C7 at a concrete bounded quantity. -/
theorem claim_C7_bounds_setters_witness :
    (xqLt uBounded.limits.2 (XQ.fin 3) = true ∨
       xqLt (XQ.fin 4) uBounded.limits.1 = true) ∧
    xqLt uBounded.limits.2 (XQ.fin 2) = true ∧
    xqLt (XQ.fin (-1)) uBounded.limits.1 = true ∧
    (set_limits histEnv uBounded (XQ.fin 3, XQ.fin 4) =
       (uBounded, some .valueError) ∧
     set_lower_limit histEnv uBounded (XQ.fin 2) = (uBounded, some .valueError) ∧
     set_upper_limit histEnv uBounded (XQ.fin (-1)) = (uBounded, some .valueError)) :=
  ⟨Or.inl (by decide), by decide, by decide,
   claim_C7_bounds_setters histEnv uBounded (XQ.fin 3, XQ.fin 4) (XQ.fin 2)
     (XQ.fin (-1)) (Or.inl (by decide)) (by decide) (by decide)⟩

/-- Counterexample to claim C7 as stated (the atomicity half): for the
retaining quantity `uRetained` (all retained samples in `[-1/2, 1/2]`,
limits `(-inf, inf)`), setting the overlapping — *not* disjoint — limits
`[100, 101]` passes validation, assigns the limits, and only then fails
inside the re-sampling step (fewer than two retained samples inside the
new limits); the raising call leaves the quantity with the new limits,
i.e. partially updated. -/
theorem claim_C7_counterexample :
    ¬ (xqLt uRetained.limits.2 (XQ.fin 100) = true ∨
       xqLt (XQ.fin 101) uRetained.limits.1 = true) ∧
    (set_limits histEnv uRetained (XQ.fin 100, XQ.fin 101)).2 = some .valueError ∧
    (set_limits histEnv uRetained (XQ.fin 100, XQ.fin 101)).1 ≠ uRetained ∧
    (set_limits histEnv uRetained (XQ.fin 100, XQ.fin 101)).1.limits
      = (XQ.fin 100, XQ.fin 101) := by
  refine ⟨by decide, by decide, by decide, by decide⟩

theorem inv_set_mean_value (u : Unc) (x : ℚ) (h : UncInv u) :
    UncInv (set_mean_value u x) := h

theorem inv_set_sigma_low (u : Unc) (x : ℚ) (h : UncInv u) :
    UncInv (set_sigma_low u x).1 := by
  unfold set_sigma_low
  split
  · exact h
  · simp [UncInv]

theorem inv_set_sigma_up (u : Unc) (x : ℚ) (h : UncInv u) :
    UncInv (set_sigma_up u x).1 := by
  unfold set_sigma_up
  split
  · exact h
  · simp [UncInv]

theorem inv_bindE (r : Unc × Option Err) (f : Unc → Unc × Option Err)
    (h : UncInv r.1) (hf : ∀ v, UncInv v → UncInv (f v).1) :
    UncInv (bindE r f).1 := by
  obtain ⟨u, e⟩ := r
  cases e with
  | none => exact hf u h
  | some e => exact h

theorem inv_eval_and_set (env : MCEnv) (u : Unc) (h : UncInv u) :
    UncInv (eval_and_set env u).1 := by
  unfold eval_and_set
  exact inv_bindE _ _ (inv_set_sigma_low _ _ (inv_set_mean_value _ _ h))
    (fun v hv => inv_set_sigma_up _ _ hv)

theorem inv_sample_random_numbers (env : MCEnv) (u : Unc) (h : UncInv u) :
    UncInv (sample_random_numbers env u).1 := by
  unfold sample_random_numbers
  split
  · split
    · exact h
    · exact inv_eval_and_set _ _ h
  · exact inv_eval_and_set _ _ h

theorem inv_set_n_random (env : MCEnv) (u : Unc) (n : Int) (h : UncInv u) :
    UncInv (set_n_random env u n).1 := by
  unfold set_n_random
  split
  · exact h
  · split
    · split
      · exact h
      · exact inv_sample_random_numbers _ _ h
    · exact h

theorem inv_init_pipeline (env : MCEnv) (u : Unc) (rv : List ℚ)
    (n : Option Int) (h : UncInv u) : UncInv (init_pipeline env u rv n).1 := by
  unfold init_pipeline
  split
  · exact inv_bindE _ _ (inv_set_n_random _ _ _ h)
      (fun v hv => inv_bindE _ _ (inv_set_sigma_low _ _ (inv_set_mean_value _ _ hv))
        (fun w hw => inv_set_sigma_up _ _ hw))
  · exact inv_set_n_random _ _ _ h

/-- Claim C8: `is_exact` is true exactly when both sigmas are zero — it
holds for every successfully constructed quantity (for any arguments,
including the sample-retention and given-sample paths) and it is
re-derived by `set_sigma_low` and `set_sigma_up` (also on their failure
paths, which leave the state untouched). -/
theorem claim_C8_is_exact_invariant (env : MCEnv) (m sl su : ℚ)
    (lims : Option (XQ × XQ)) (st : Bool) (rv : List ℚ) (n : Option Int)
    (sd : ℕ) (u r : Unc) (x y : ℚ)
    (hinit : Unc.init env m sl su lims st rv n sd = .ok u) (hr : UncInv r) :
    (u.is_exact = true ↔ (u.sigma_low = 0 ∧ u.sigma_up = 0)) ∧
    UncInv (set_sigma_low r x).1 ∧ UncInv (set_sigma_up r y).1 := by
  refine ⟨?_, inv_set_sigma_low _ _ hr, inv_set_sigma_up _ _ hr⟩
  have hu : UncInv u := by
    unfold Unc.init at hinit
    by_cases h1 : sl < 0
    · rw [if_pos h1] at hinit
      exact absurd hinit (by simp)
    rw [if_neg h1] at hinit
    by_cases h2 : su < 0
    · rw [if_pos h2] at hinit
      exact absurd hinit (by simp)
    rw [if_neg h2] at hinit
    by_cases h3 : limits_check_fails (lims.getD (.ninf, .pinf)) = true
    · rw [if_pos h3] at hinit
      exact absurd hinit (by simp)
    rw [if_neg h3] at hinit
    have hp := inv_init_pipeline env
      { mean_value := m, sigma_low := sl, sigma_up := su,
        is_exact := decide (sl = 0) && decide (su = 0),
        limits := lims.getD (.ninf, .pinf), seed := sd, store := st,
        random_values := rv, n_random := 0 } rv n (by simp [UncInv])
    revert hinit
    cases hres : init_pipeline env
      { mean_value := m, sigma_low := sl, sigma_up := su,
        is_exact := decide (sl = 0) && decide (su = 0),
        limits := lims.getD (.ninf, .pinf), seed := sd, store := st,
        random_values := rv, n_random := 0 } rv n with
    | mk u' e =>
      cases e with
      | none =>
        intro hinit
        rw [hres] at hp
        simp only [Except.ok.injEq] at hinit
        rwa [← hinit]
      | some e =>
        intro hinit
        exact absurd hinit (by simp)
  rw [UncInv] at hu
  rw [hu]
  simp

/-- Witness for claim C8 at concrete arguments. -/
theorem claim_C8_is_exact_invariant_witness :
    (Unc.init histEnv 1 0 0 none false [0] (some 2) 0 =
       .ok { mean_value := 1, sigma_low := 0, sigma_up := 0, is_exact := true,
             limits := (.ninf, .pinf), seed := 0, store := false,
             random_values := [0], n_random := 2 } ∧ UncInv uPlain) ∧
    (({ mean_value := 1, sigma_low := 0, sigma_up := 0, is_exact := true,
        limits := (.ninf, .pinf), seed := 0, store := false,
        random_values := [0], n_random := 2 } : Unc).is_exact = true ↔
       (({ mean_value := 1, sigma_low := 0, sigma_up := 0, is_exact := true,
           limits := (.ninf, .pinf), seed := 0, store := false,
           random_values := [0], n_random := 2 } : Unc).sigma_low = 0 ∧
        ({ mean_value := 1, sigma_low := 0, sigma_up := 0, is_exact := true,
           limits := (.ninf, .pinf), seed := 0, store := false,
           random_values := [0], n_random := 2 } : Unc).sigma_up = 0)) ∧
    UncInv (set_sigma_low uPlain (1/3)).1 ∧ UncInv (set_sigma_up uPlain (-2)).1 :=
  ⟨⟨by decide, by rfl⟩,
   claim_C8_is_exact_invariant histEnv 1 0 0 none false [0] (some 2) 0 _ uPlain
     (1/3) (-2) (by decide) (by rfl)⟩

/-- Claim C9: constructing with a negative `sigma_low` or `sigma_up`
always fails with `ValueError` (the spec's InvalidArgument), for every
mean, limits, retention flag, sample array and count; the mutators
`set_sigma_low` / `set_sigma_up` likewise fail on negative arguments
(leaving the state unchanged). -/
theorem claim_C9_negative_sigma (env : MCEnv) (m sl su : ℚ)
    (lims : Option (XQ × XQ)) (st : Bool) (rv : List ℚ) (n : Option Int)
    (sd : ℕ) (r : Unc) (x y : ℚ) (h : sl < 0 ∨ su < 0) (hx : x < 0) (hy : y < 0) :
    Unc.init env m sl su lims st rv n sd = .error .valueError ∧
    set_sigma_low r x = (r, some .valueError) ∧
    set_sigma_up r y = (r, some .valueError) := by
  refine ⟨?_, ?_, ?_⟩
  · rcases h with h | h
    · exact init_neg_sigma env m sl su lims st rv n sd (Or.inl h)
    · by_cases h1 : sl < 0
      · exact init_neg_sigma env m sl su lims st rv n sd (Or.inl h1)
      · exact init_neg_sigma env m sl su lims st rv n sd
          (Or.inr ⟨not_lt.mp h1, h⟩)
  · simp [set_sigma_low, if_pos hx]
  · simp [set_sigma_up, if_pos hy]

/-- Witness for claim C9 at concrete arguments. -/
theorem claim_C9_negative_sigma_witness :
    ((-1 : ℚ) < 0 ∨ (1 : ℚ) < 0) ∧
    (Unc.init histEnv 1 (-1) 1 none false [0] (some 2) 0 = .error .valueError ∧
     set_sigma_low uPlain (-1) = (uPlain, some .valueError) ∧
     set_sigma_up uPlain (-2) = (uPlain, some .valueError)) :=
  ⟨Or.inl (by decide),
   claim_C9_negative_sigma histEnv 1 (-1) 1 none false [0] (some 2) 0 uPlain
     (-1) (-2) (Or.inl (by decide)) (by decide) (by decide)⟩

theorem lim_set_sigma_low (u : Unc) (x : ℚ) :
    (set_sigma_low u x).1.limits = u.limits := by
  unfold set_sigma_low
  split <;> rfl

theorem lim_set_sigma_up (u : Unc) (x : ℚ) :
    (set_sigma_up u x).1.limits = u.limits := by
  unfold set_sigma_up
  split <;> rfl

theorem lim_bindE (r : Unc × Option Err) (f : Unc → Unc × Option Err)
    (hf : ∀ v, (f v).1.limits = v.limits) :
    (bindE r f).1.limits = r.1.limits := by
  obtain ⟨u, e⟩ := r
  cases e with
  | none => exact hf u
  | some e => rfl

theorem lim_eval_and_set (env : MCEnv) (u : Unc) :
    (eval_and_set env u).1.limits = u.limits := by
  unfold eval_and_set
  rw [lim_bindE _ _ (fun v => lim_set_sigma_up v _), lim_set_sigma_low]
  rfl

theorem lim_sample_random_numbers (env : MCEnv) (u : Unc) :
    (sample_random_numbers env u).1.limits = u.limits := by
  unfold sample_random_numbers
  split
  · split
    · rfl
    · rw [lim_eval_and_set]
  · rw [lim_eval_and_set]

theorem lim_set_n_random (env : MCEnv) (u : Unc) (n : Int) :
    (set_n_random env u n).1.limits = u.limits := by
  unfold set_n_random
  split
  · rfl
  · split
    · split
      · rfl
      · rw [lim_sample_random_numbers]
    · rfl

theorem lim_init_pipeline (env : MCEnv) (u : Unc) (rv : List ℚ) (n : Option Int) :
    (init_pipeline env u rv n).1.limits = u.limits := by
  unfold init_pipeline
  split
  · refine (lim_bindE _ _ ?_).trans (lim_set_n_random env u _)
    intro v
    exact (lim_bindE _ _ (fun w => lim_set_sigma_up w _)).trans
      ((lim_set_sigma_low _ _).trans rfl)
  · exact lim_set_n_random env u _

theorem init_none_limits (env : MCEnv) (m sl su : ℚ) (st : Bool) (rv : List ℚ)
    (n : Option Int) (sd : ℕ) :
    ok_limits (Unc.init env m sl su none st rv n sd) = (.ninf, .pinf) := by
  unfold Unc.init
  by_cases h1 : sl < 0
  · rw [if_pos h1]; rfl
  rw [if_neg h1]
  by_cases h2 : su < 0
  · rw [if_pos h2]; rfl
  rw [if_neg h2]
  by_cases h3 : limits_check_fails ((none : Option (XQ × XQ)).getD (.ninf, .pinf)) = true
  · rw [if_pos h3]; rfl
  rw [if_neg h3]
  have hp := lim_init_pipeline env
    { mean_value := m, sigma_low := sl, sigma_up := su,
      is_exact := decide (sl = 0) && decide (su = 0),
      limits := (none : Option (XQ × XQ)).getD (.ninf, .pinf), seed := sd,
      store := st, random_values := rv, n_random := 0 } rv n
  revert hp
  cases init_pipeline env
      { mean_value := m, sigma_low := sl, sigma_up := su,
        is_exact := decide (sl = 0) && decide (su = 0),
        limits := (none : Option (XQ × XQ)).getD (.ninf, .pinf), seed := sd,
        store := st, random_values := rv, n_random := 0 } rv n with
  | mk u' e =>
    cases e with
    | none => intro hp; exact hp
    | some e => intro _; rfl

theorem mk_result_limits (env : MCEnv) (sd n : ℕ)
    (res : ((ℚ × ℚ × ℚ) × List ℚ) × Bool) :
    ok_limits (mk_result env sd n res) = (.ninf, .pinf) :=
  init_none_limits env _ _ _ _ _ _ _

/-- Claim C10: the result of every binary operation — `+ - * / **`
between two quantities or between a quantity and a scalar, in either
order — carries the default limits `(-inf, inf)`: the operand bounds are
never propagated into the result (every operator method constructs the
result without a `limits` argument). -/
theorem claim_C10_result_limits (env : MCEnv) (sd sd2 : ℕ) (a b : Unc) (q : ℚ) :
    ok_limits (dunder_add_unc env sd a b) = (.ninf, .pinf) ∧
    ok_limits (dunder_add_num env sd a q) = (.ninf, .pinf) ∧
    ok_limits (dunder_radd_num env sd a q) = (.ninf, .pinf) ∧
    ok_limits (dunder_sub_unc env sd a b) = (.ninf, .pinf) ∧
    ok_limits (dunder_sub_num env sd a q) = (.ninf, .pinf) ∧
    ok_limits (dunder_rsub_num env sd a q) = (.ninf, .pinf) ∧
    ok_limits (dunder_mul_unc env sd a b) = (.ninf, .pinf) ∧
    ok_limits (dunder_mul_num env sd a q) = (.ninf, .pinf) ∧
    ok_limits (dunder_rmul_num env sd a q) = (.ninf, .pinf) ∧
    ok_limits (dunder_truediv_unc env sd a b) = (.ninf, .pinf) ∧
    ok_limits (dunder_truediv_num env sd a q) = (.ninf, .pinf) ∧
    ok_limits (dunder_rtruediv_num env sd sd2 a q) = (.ninf, .pinf) ∧
    ok_limits (dunder_pow_unc env sd a b) = (.ninf, .pinf) ∧
    ok_limits (dunder_pow_num env sd a q) = (.ninf, .pinf) ∧
    ok_limits (dunder_rpow_num env sd a q) = (.ninf, .pinf) := by
  refine ⟨mk_result_limits _ _ _ _, mk_result_limits _ _ _ _, mk_result_limits _ _ _ _,
    mk_result_limits _ _ _ _, mk_result_limits _ _ _ _, mk_result_limits _ _ _ _,
    mk_result_limits _ _ _ _, mk_result_limits _ _ _ _, mk_result_limits _ _ _ _,
    ?_, ?_, ?_, mk_result_limits _ _ _ _, mk_result_limits _ _ _ _,
    mk_result_limits _ _ _ _⟩
  · unfold dunder_truediv_unc
    cases htd : truediv_unc env a b with
    | error e => simp only [htd]; rfl
    | ok res => simp only [htd]; exact mk_result_limits _ _ _ _
  · unfold dunder_truediv_num
    cases htd : truediv_num a q with
    | error e => simp only [htd]; rfl
    | ok res => simp only [htd]; exact mk_result_limits _ _ _ _
  · unfold dunder_rtruediv_num
    cases hinit : Unc.init env q 0 0 none a.store [0] (some (a.n_random : Int)) sd with
    | error e => simp only [hinit]; rfl
    | ok inter =>
      simp only [hinit]
      cases htd : truediv_unc env inter a with
      | error e => simp only [htd]; rfl
      | ok res => simp only [htd]; exact mk_result_limits _ _ _ _
